import Mathlib

/-!
Shallow embedding of `src/concrete/ml/quantization/quantized_module.py`
(the `QuantizedModule` class and its two module-level helpers
`_raise_qat_import_error` and `_get_inputset_generator`).

Modelling conventions:
* A numpy array is modelled by `NDArr`: an element dtype together with the
  list of its samples along the leading (batch) dimension; each sample is an
  opaque row of integers.  No claim computes array arithmetic, so the numeric
  meaning of row entries is irrelevant.
* A Python exception is a value of `Err`; each constructor carries the data
  the source interpolates into the message, `Err.message` rebuilds the exact
  message string of the source and `Err.pyClass` names the Python exception
  class that the source raises (`assert_true(cond, msg, E)` raises `E(msg)`
  when `cond` is false, with `AssertionError` as the default class; a bare
  `assert` raises `AssertionError`).
* Python dicts are association lists with insert-or-overwrite semantics
  (`dictInsert`), preserving insertion order exactly as CPython does.
* External collaborators (quantizers, quantized operations, the compiled
  circuit) are records of functions, mirroring the narrow interfaces the
  source uses: `UniformQuantizer.quant`, an operation's call together with
  its `error_tracker` fault slot, `Circuit.simulate` /
  `Circuit.encrypt_run_decrypt` and the circuit graph's range/bit-width
  queries.
-/

/-- Element dtype of a numpy array, restricted to the dtypes the module
distinguishes: `numpy.issubdtype(dtype, numpy.integer)` is true exactly for
the integer dtypes. -/
inductive DType where
  | int64
  | int32
  | float64
  | float32
deriving DecidableEq, Repr

/-- `issubclass(dtype.type, numpy.integer)` / `numpy.issubdtype(dtype, numpy.integer)`. -/
def DType.isInteger : DType → Bool
  | .int64 => true
  | .int32 => true
  | .float64 => false
  | .float32 => false

/-- `str(dtype)`, as interpolated into error messages. -/
def DType.name : DType → String
  | .int64 => "int64"
  | .int32 => "int32"
  | .float64 => "float64"
  | .float32 => "float32"

/-- A numpy array: an element dtype and the list of samples along the
leading dimension (`shape[0] = samples.length`); a sample is an opaque row. -/
structure NDArr where
  dtype : DType
  samples : List (List Int)
deriving DecidableEq, Repr

instance : Inhabited NDArr := ⟨⟨DType.int64, []⟩⟩

/-- `numpy.expand_dims(row, 0)`: wrap one sample into an array whose leading
dimension has size 1. -/
def expandDims0 (d : DType) (row : List Int) : NDArr := ⟨d, [row]⟩

/-- A value that is either a single numpy array or a tuple of arrays, the
`Union[numpy.ndarray, Tuple[numpy.ndarray, ...]]` of the source. -/
inductive ArrOrTuple where
  | arr (a : NDArr)
  | tup (l : List NDArr)
deriving DecidableEq, Repr

instance : Inhabited ArrOrTuple := ⟨ArrOrTuple.tup []⟩

/-- `to_tuple` from `common.utils`: wraps a non-tuple value into a 1-tuple
and leaves tuples unchanged. -/
def to_tuple : ArrOrTuple → List NDArr
  | .arr a => [a]
  | .tup l => l

/-- Python exceptions raised by the embedded code.  Each constructor carries
the data interpolated into the message (see `Err.message`). -/
inductive Err where
  /-- `ValueError` from `_raise_qat_import_error`, carrying the collected
  `(tensor name, operation type)` fault records. -/
  | qatImportError (badQatOps : List (String × String))
  /-- `ValueError` from `forward`'s input dtype check, carrying the
  enumerated `(index, array)` offenders. -/
  | nonIntegerInputs (offenders : List (Nat × NDArr))
  /-- `TypeError` "Got {got} inputs, expected {expected}" from the arity
  checks of `_forward`, `quantize_input` and
  `set_inputs_quantization_parameters`. -/
  | arityMismatch (got expected : Nat)
  /-- `AssertionError` from `forward_in_fhe`'s compiled-circuit check
  (`assert_true` with its default error class). -/
  | notCompiledFhe
  /-- `AttributeError` from `check_model_is_compiled`. -/
  | notCompiledAttr
  /-- `AssertionError` "Mismatched dataset lengths" from `compile`. -/
  | mismatchedDatasetLengths
  /-- `AssertionError` from `compile`'s bare `assert` rejecting integral
  calibration inputs. -/
  | nonFloatCompileInputs
  /-- `AssertionError` "Inputset cannot be empty" from
  `_get_inputset_generator`. -/
  | emptyInputset
  /-- `AssertionError` "Inputs were not quantized to int64 values" from
  `quantize_input`. -/
  | notQuantizedInt64
  /-- `KeyError` from `layer_results[output_name]` in `_forward` when an
  output name was never produced. -/
  | missingOutput (name : String)
  /-- `AssertionError` from `assert_true(len(outputs) == 1)` in `_forward`. -/
  | outputCountNotOne (got : Nat)
  /-- `AssertionError` from `assert isinstance(outputs[0], QuantizedArray)`
  in `_forward`. -/
  | outputNotQuantizedArray
  /-- `ValueError` from `numpy.concatenate([])` in `forward_in_fhe` when the
  batch is empty. -/
  | emptyConcat
  /-- `IndexError` from `inputs[0]` / `qvalues[0]` on an empty tuple. -/
  | indexError
deriving DecidableEq, Repr

/-- One line of the QAT import error message:
`f"* Tensor {info[0]}, input of an {info[1]} operation"`. -/
def qatLine (info : String × String) : String :=
  "* Tensor " ++ info.1 ++ ", input of an " ++ info.2 ++ " operation"

/-- The lines of the QAT import error message, one per fault record. -/
def qatLines (badQatOps : List (String × String)) : List String :=
  badQatOps.map qatLine

/-- The full message of `_raise_qat_import_error`. -/
def qatMessage (badQatOps : List (String × String)) : String :=
  "Error occurred during quantization aware training (QAT) import: "
    ++ "The following tensors were expected to be quantized, but the values "
    ++ "found during calibration do not appear to be quantized. \n\n"
    ++ String.intercalate "\n" (qatLines badQatOps)
    ++ "\n\nCould not determine a unique scale for the quantization! "
    ++ "Please check the ONNX graph of this model."

/-- One item of the `forward` dtype error message:
`f"#{val[0]} ({val[1].dtype})"`. -/
def offenderText (p : Nat × NDArr) : String :=
  "#" ++ toString p.1 ++ " (" ++ p.2.dtype.name ++ ")"

/-- The full message of `forward`'s dtype check. -/
def nonIntegerMessage (offenders : List (Nat × NDArr)) : String :=
  "Inputs: " ++ String.intercalate ", " (offenders.map offenderText)
    ++ " are not integer types. Make sure you quantize your input before calling forward."

/-- The message string the source attaches to each exception. -/
def Err.message : Err → String
  | .qatImportError l => qatMessage l
  | .nonIntegerInputs l => nonIntegerMessage l
  | .arityMismatch g e => "Got " ++ toString g ++ " inputs, expected " ++ toString e
  | .notCompiledFhe =>
      "The quantized module is not compiled. Please run compile(...) first before "
        ++ "executing it in FHE."
  | .notCompiledAttr =>
      "The quantized module is not compiled. Please run compile(...) first before "
        ++ "executing it in FHE."
  | .mismatchedDatasetLengths => "Mismatched dataset lengths"
  | .nonFloatCompileInputs =>
      "Inputs used for compiling a QuantizedModule should only be floating points and not"
        ++ "already-quantized values."
  | .emptyInputset => "Inputset cannot be empty"
  | .notQuantizedInt64 => "Inputs were not quantized to int64 values"
  | .missingOutput n => n
  | .outputCountNotOne _ => ""
  | .outputNotQuantizedArray => ""
  | .emptyConcat => "need at least one array to concatenate"
  | .indexError => "tuple index out of range"

/-- The Python exception class of each error. -/
def Err.pyClass : Err → String
  | .qatImportError _ => "ValueError"
  | .nonIntegerInputs _ => "ValueError"
  | .arityMismatch _ _ => "TypeError"
  | .notCompiledFhe => "AssertionError"
  | .notCompiledAttr => "AttributeError"
  | .mismatchedDatasetLengths => "AssertionError"
  | .nonFloatCompileInputs => "AssertionError"
  | .emptyInputset => "AssertionError"
  | .notQuantizedInt64 => "AssertionError"
  | .missingOutput _ => "KeyError"
  | .outputCountNotOne _ => "AssertionError"
  | .outputNotQuantizedArray => "AssertionError"
  | .emptyConcat => "ValueError"
  | .indexError => "IndexError"

/-- A `QuantizedArray` as `_forward` builds it from an input quantizer: the
quantizer's bit-width together with the raw integer values (the quantizer's
options/stats/params travel with the bit-width and are not further
inspected by this module). -/
structure QuantizedArray where
  nBits : Nat
  qvalues : NDArr
deriving DecidableEq, Repr

/-- `ONNXOpInputOutputType`: a value flowing through the graph, either a
`QuantizedArray` or a raw numpy array. -/
inductive GVal where
  | qa (q : QuantizedArray)
  | nd (a : NDArr)
deriving DecidableEq, Repr

/-- An input `UniformQuantizer`: its bit-width (together with the
options/stats/params the source forwards verbatim) and its `quant`
function. -/
structure UniformQuantizer where
  nBits : Nat
  quant : NDArr → NDArr

/-- A `QuantizedOp` graph node as `_forward` uses it: its operation-type
string (`layer.__class__.op_type()`), its hierarchical tag
(`op_instance_name`), its call — which consumes the resolved (possibly
absent) inputs and yields the output value together with the indices the
operation pushed into its `error_tracker` slot — and the
`debug_value_tracker` slot `forward` installs and clears. -/
structure QLayer where
  opType : String
  opInstanceName : String
  run : List (Option GVal) → GVal × List Nat
  debugSlot : Option Unit := none

/-- The compiled-circuit handle: the two per-sample execution entry points
and the circuit graph's tag-pattern queries (`integer_range` returns a
range or `None`; `maximum_integer_bit_width` returns an `int`, negative
when no tagged node matches). -/
structure Circuit where
  simulate : List NDArr → NDArr
  encrypt_run_decrypt : List NDArr → NDArr
  graphIntegerRange : (String → Bool) → Option (Int × Int)
  graphMaxBitWidth : (String → Bool) → Int

/-- The `QuantizedModule` state. -/
structure QuantizedModule where
  ordered_module_input_names : List String
  ordered_module_output_names : List String
  quant_layers_dict : List (String × (List String × QLayer))
  input_quantizers : List UniformQuantizer
  output_quantizers : List UniformQuantizer
  fhe_circuit : Option Circuit := none

/-- Python-dict assignment `d[k] = v` on an insertion-ordered association
list: overwrite in place when the key exists, append otherwise. -/
def dictInsert {V : Type} (d : List (String × V)) (k : String) (v : V) :
    List (String × V) :=
  if d.any (fun p => p.1 == k) then
    d.map (fun p => if p.1 == k then (k, v) else p)
  else d ++ [(k, v)]

/-- Python-dict lookup `d.get(k, None)`. -/
def dictGet? {V : Type} (d : List (String × V)) (k : String) : Option V :=
  (d.find? (fun p => p.1 == k)).map (fun p => p.2)

/-- The `QuantizedArray` inputs `_forward` builds from the module's input
quantizers and the raw integer arrays (`q_inputs` in the source). -/
def qInputsOf (m : QuantizedModule) (qvalues : List NDArr) : List GVal :=
  (List.range m.input_quantizers.length).map (fun idx =>
    GVal.qa ⟨(m.input_quantizers.getD idx ⟨0, id⟩).nBits, qvalues.getD idx default⟩)

/-- `dict(zip(self.ordered_module_input_names, q_inputs))`: seed the
name-to-tensor map (Python `zip` truncates to the shorter sequence and
`dict` keeps the last binding of a repeated key). -/
def initLayerResults (m : QuantizedModule) (qvalues : List NDArr) :
    List (String × GVal) :=
  (m.ordered_module_input_names.zip (qInputsOf m qvalues)).foldl
    (fun acc p => dictInsert acc p.1 p.2) []

/-- The graph-execution loop of `_forward`: run every node in stored order,
resolving inputs by name (missing names resolve to `none`), install/read the
node's `error_tracker`, record the node's faults as
`(input_names[idx], op_type)` pairs, and store the output under the node's
output name.  Returns the final name-to-tensor map and the accumulated
`bad_qat_ops` list. -/
def runGraph (layers : List (String × (List String × QLayer)))
    (init : List (String × GVal)) :
    List (String × GVal) × List (String × String) :=
  layers.foldl
    (fun acc entry =>
      let inputNames := entry.2.1
      let layer := entry.2.2
      let inputs := inputNames.map (fun n => dictGet? acc.1 n)
      let out := layer.run inputs
      let newBad := acc.2 ++ out.2.map (fun i => (inputNames.getD i "", layer.opType))
      (dictInsert acc.1 entry.1 out.1, newBad))
    (init, [])

/-- The `bad_qat_ops` list a full forward pass over the graph collects. -/
def badQatOpsOf (m : QuantizedModule) (qvalues : List NDArr) :
    List (String × String) :=
  (runGraph m.quant_layers_dict (initLayerResults m qvalues)).2

/-- `tuple(layer_results[output_name] for output_name in names)`: direct
dict indexing, raising `KeyError` on a missing name. -/
def collectOutputs (results : List (String × GVal)) :
    List String → Except Err (List GVal)
  | [] => .ok []
  | n :: ns =>
    match dictGet? results n with
    | none => .error (.missingOutput n)
    | some v => (collectOutputs results ns).map (fun rest => v :: rest)

/-- `QuantizedModule._forward`: arity check, seed the results map with the
quantized inputs, run the whole graph collecting QAT fault records, raise
the aggregated QAT error if any were collected, then extract the single
designated output and return its raw integer values. -/
def _forward (m : QuantizedModule) (qvalues : List NDArr) : Except Err NDArr :=
  if qvalues.length ≠ m.input_quantizers.length then
    .error (.arityMismatch qvalues.length m.input_quantizers.length)
  else
    let res := runGraph m.quant_layers_dict (initLayerResults m qvalues)
    if res.2 ≠ [] then .error (.qatImportError res.2)
    else
      match collectOutputs res.1 m.ordered_module_output_names with
      | .error e => .error e
      | .ok outputs =>
        match outputs with
        | [GVal.qa q] => .ok q.qvalues
        | [GVal.nd _] => .error .outputNotQuantizedArray
        | l => .error (.outputCountNotOne l.length)

/-- The `invalid_inputs` tuple of `forward`: every `(index, array)` pair
whose element dtype is not an integer dtype. -/
def invalidInputs (qvalues : List NDArr) : List (Nat × NDArr) :=
  qvalues.enum.filter (fun p => !p.2.dtype.isInteger)

/-- Set every graph operation's `debug_value_tracker` slot. -/
def setDebugSlots (m : QuantizedModule) (v : Option Unit) : QuantizedModule :=
  { m with quant_layers_dict :=
      m.quant_layers_dict.map (fun e => (e.1, (e.2.1, { e.2.2 with debugSlot := v }))) }

/-- `QuantizedModule.forward`: check every input's dtype is integral
(raising a `ValueError` enumerating the offenders otherwise), then — in
debug mode — install the debug tracker on every operation, run `_forward`
and clear the trackers afterwards.  The second component is the module
state when the call returns or raises; as in the source, an exception
escaping `_forward` in debug mode propagates before the clearing loop
runs.  (The tracker dictionary's contents are filled in by the operation
collaborators and are outside this model.) -/
def forward (m : QuantizedModule) (qvalues : List NDArr) (debug : Bool) :
    Except Err NDArr × QuantizedModule :=
  let invalid := invalidInputs qvalues
  if invalid ≠ [] then (.error (.nonIntegerInputs invalid), m)
  else if debug then
    let m1 := setDebugSlots m (some ())
    match _forward m1 qvalues with
    | .error e => (.error e, m1)
    | .ok r => (.ok r, setDebugSlots m1 none)
  else (_forward m qvalues, m)

/-- `QuantizedModule.quantize_input`: arity check against the input
quantizers, quantize each value with its quantizer, assert the combined
result dtype is int64 (`numpy.array(q_values).dtype == numpy.int64`, which
fails when the tuple is empty or any element dtype is not int64), then
return the single array itself for a one-input module and the tuple
otherwise. -/
def quantize_input (m : QuantizedModule) (values : List NDArr) :
    Except Err ArrOrTuple :=
  if values.length ≠ m.input_quantizers.length then
    .error (.arityMismatch values.length m.input_quantizers.length)
  else
    let q_values := (List.range values.length).map (fun idx =>
      (m.input_quantizers.getD idx ⟨0, id⟩).quant (values.getD idx default))
    if q_values.isEmpty || !(q_values.all (fun a => a.dtype == DType.int64)) then
      .error .notQuantizedInt64
    else if q_values.length == 1 then .ok (.arr (q_values.headD default))
    else .ok (.tup q_values)

/-- `QuantizedModule.set_inputs_quantization_parameters`: arity check
against the declared input names, then replace the input-quantizer list
with a (deep) copy of the arguments.  Returns the module state after the
call together with the raised exception, if any: on an arity mismatch the
exception is raised before any mutation, so the state is unchanged. -/
def set_inputs_quantization_parameters (m : QuantizedModule)
    (input_q_params : List UniformQuantizer) : QuantizedModule × Option Err :=
  if input_q_params.length ≠ m.ordered_module_input_names.length then
    (m, some (.arityMismatch input_q_params.length m.ordered_module_input_names.length))
  else
    ({ m with input_quantizers := input_q_params }, none)

/-- `QuantizedModule.check_model_is_compiled`: `AttributeError` when no
circuit handle is present. -/
def check_model_is_compiled (m : QuantizedModule) : Except Err Unit :=
  match m.fhe_circuit with
  | none => .error .notCompiledAttr
  | some _ => .ok ()

/-- `_get_inputset_generator`: normalize to a tuple, reject an empty tuple,
then — for more than one input — yield, for each sample index of the first
input, the tuple of every input's sample at that index re-expanded to
leading dimension 1; for a single input, yield each of its samples
re-expanded to leading dimension 1.  (The Python generator is lazy; its
elements, in order, are this list.) -/
def _get_inputset_generator (q : ArrOrTuple) : Except Err (List ArrOrTuple) :=
  let q_inputs := to_tuple q
  if q_inputs.isEmpty then .error .emptyInputset
  else if 1 < q_inputs.length then
    .ok ((List.range (q_inputs.headD default).samples.length).map (fun idx =>
      .tup (q_inputs.map (fun qi => expandDims0 qi.dtype (qi.samples.getD idx [])))))
  else
    .ok ((q_inputs.headD default).samples.map (fun s =>
      .arr (expandDims0 (q_inputs.headD default).dtype s)))

/-- `QuantizedModule.compile`, up to the hand-off to the external compiler:
normalize the calibration inputs to a tuple, check that all inputs share
the first input's leading (sample) dimension (`assert_true`,
"Mismatched dataset lengths"), check that no input already has an integral
dtype (bare `assert`), quantize the inputs with the module's existing input
quantizers, and build the input set handed to the external compiler.  The
p-error configuration handling and the `Compiler.compile` call itself are
external-collaborator calls (the circuit handle they produce is opaque);
the returned value is the input set this pipeline passes to them. -/
def compile (m : QuantizedModule) (inputs : ArrOrTuple) :
    Except Err (List ArrOrTuple) :=
  let inp := to_tuple inputs
  match inp with
  | [] => .error .indexError
  | first :: _ =>
    if !(inp.all (fun i => i.samples.length == first.samples.length)) then
      .error .mismatchedDatasetLengths
    else if inp.any (fun i => i.dtype.isInteger) then
      .error .nonFloatCompileInputs
    else
      match quantize_input m inp with
      | .error e => .error e
      | .ok q_inputs => _get_inputset_generator q_inputs

/-- `numpy.concatenate(l, axis=0)` on a non-empty list of arrays with a
common dtype: the samples of all arrays joined in order. -/
def npConcatenate (l : List NDArr) : NDArr :=
  ⟨(l.headD default).dtype, (l.map (fun a => a.samples)).flatten⟩

/-- The per-sample argument tuple `tuple(qvalues[input][[i]] for input in
range(len(qvalues)))`: sample `i` of every input, sliced with its leading
dimension kept at size 1. -/
def fheSample (qvalues : List NDArr) (i : Nat) : List NDArr :=
  qvalues.map (fun q => ⟨q.dtype, [q.samples.getD i []]⟩)

/-- `QuantizedModule.forward_in_fhe`: check a circuit handle exists
(`assert_true`, raised before any backend call), then loop over the first
input's sample dimension, run `simulate` or `encrypt_run_decrypt` on each
single-sample slice, and concatenate the per-sample results along the
batch dimension.  The second component is the list of argument tuples
passed to the backend, in call order (`numpy.concatenate` on an empty
result list raises a `ValueError`). -/
def forward_in_fhe (m : QuantizedModule) (qvalues : List NDArr)
    (simulate : Bool) : Except Err NDArr × List (List NDArr) :=
  match m.fhe_circuit with
  | none => (.error .notCompiledFhe, [])
  | some c =>
    let n := (qvalues.headD default).samples.length
    let calls := (List.range n).map (fheSample qvalues)
    let results := calls.map (fun args =>
      if simulate then c.simulate args else c.encrypt_run_decrypt args)
    if results.isEmpty then (.error .emptyConcat, calls)
    else (.ok (npConcatenate results), calls)

/-- The tag pattern `re.escape(op_instance_name) + "(\\..*)?"` crafted by
`bitwidth_and_range_report`, as the predicate on tags it matches: the
operation's own tag, or any extension of it after a dot. -/
def tagPattern (name : String) : String → Bool :=
  fun tag => tag == name || (name.data ++ ['.']).isPrefixOf tag.data

/-- The loop body of `bitwidth_and_range_report` for one graph node: query
the circuit graph's integer range and maximum bit-width with the node's tag
pattern, and record `{"range": value_range, "bitwidth": bitwidth}` under the
node's tag exactly when the range is present and the bit-width is
non-negative (fused-away nodes have neither and are silently skipped). -/
def reportStep (c : Circuit) (acc : List (String × ((Int × Int) × Int)))
    (entry : String × (List String × QLayer)) :
    List (String × ((Int × Int) × Int)) :=
  let op := entry.2.2
  let pat := tagPattern op.opInstanceName
  let value_range := c.graphIntegerRange pat
  let bitwidth := c.graphMaxBitWidth pat
  match value_range with
  | some vr => if 0 ≤ bitwidth then dictInsert acc op.opInstanceName (vr, bitwidth) else acc
  | none => acc

/-- The report contribution of one graph node, as an optional entry value
(proof-side restatement of `reportStep`). -/
def reportEntry (c : Circuit) (op : QLayer) : Option ((Int × Int) × Int) :=
  match c.graphIntegerRange (tagPattern op.opInstanceName) with
  | some vr =>
    if 0 ≤ c.graphMaxBitWidth (tagPattern op.opInstanceName) then
      some (vr, c.graphMaxBitWidth (tagPattern op.opInstanceName))
    else none
  | none => none

/-- `QuantizedModule.bitwidth_and_range_report`: `None` when no circuit is
compiled; otherwise, for every graph node in stored order, query the
circuit graph's integer range and maximum bit-width with the node's tag
pattern and record `(range, bitwidth)` under the node's tag exactly when
the range is present and the bit-width is non-negative. -/
def bitwidth_and_range_report (m : QuantizedModule) :
    Option (List (String × ((Int × Int) × Int))) :=
  match m.fhe_circuit with
  | none => none
  | some c => some (m.quant_layers_dict.foldl (reportStep c) [])

/-- Example input quantizer: 7 bits, quantization keeps the rows and
produces an int64 array. -/
def exQuant : UniformQuantizer :=
  ⟨7, fun a => ⟨DType.int64, a.samples⟩⟩

/-- Example graph node that reports a QAT fault on its input 0. -/
def exLayerBad : QLayer :=
  ⟨"Gemm", "gemm1", fun _ => (GVal.nd ⟨DType.int64, []⟩, [0]), none⟩

/-- Example graph node that passes its first input through and reports no
fault. -/
def exLayerGood : QLayer :=
  ⟨"Gemm", "gemm1", fun inputs => ((inputs.headD none).getD (GVal.nd default), []), none⟩

/-- Example int64 input array with two samples. -/
def exArrInt : NDArr := ⟨DType.int64, [[1], [2]]⟩

/-- Example float64 array with two samples. -/
def exArrFloat : NDArr := ⟨DType.float64, [[1], [2]]⟩

/-- Example single-input module whose only operation reports a QAT fault. -/
def exModBad : QuantizedModule :=
  ⟨["x"], ["y"], [("y", (["x"], exLayerBad))], [exQuant], [], none⟩

/-- Example single-input module whose only operation is fault-free. -/
def exModGood : QuantizedModule :=
  ⟨["x"], ["y"], [("y", (["x"], exLayerGood))], [exQuant], [], none⟩

/-- Example compiled circuit: both execution modes return a single-sample
result, and the graph reports a range and bit-width for the tag "gemm1". -/
def exCircuit : Circuit :=
  ⟨fun _ => ⟨DType.int64, [[7]]⟩,
   fun _ => ⟨DType.int64, [[9]]⟩,
   fun p => if p "gemm1" then some (0, 5) else none,
   fun p => if p "gemm1" then 3 else -1⟩

/-- Example compiled module: `exModGood` with a circuit handle. -/
def exModCompiled : QuantizedModule :=
  { exModGood with fhe_circuit := some exCircuit }

/-! ## Theorems -/

/-- `collectOutputs` only fails with a `KeyError`. -/
theorem collectOutputs_error_cases (results : List (String × GVal)) :
    ∀ (names : List String) (e : Err),
      collectOutputs results names = .error e → ∃ n, e = Err.missingOutput n := by
  intro names
  induction names with
  | nil => intro e h; simp [collectOutputs] at h
  | cons n ns ih =>
    intro e h
    simp only [collectOutputs] at h
    cases hg : dictGet? results n with
    | none => rw [hg] at h; exact ⟨n, by injection h with h; exact h.symm⟩
    | some v =>
      rw [hg] at h
      cases hrec : collectOutputs results ns with
      | error e2 => rw [hrec] at h; simp [Except.map] at h; exact h ▸ ih e2 hrec
      | ok rest => rw [hrec] at h; simp [Except.map] at h

/-- C5: with no compiled-circuit handle, `forward_in_fhe` fails with the
state error directing the caller to compile first, and the backend call
trace is empty — the failure happens before any backend circuit call. -/
theorem forward_in_fhe_not_compiled (m : QuantizedModule) (qvalues : List NDArr)
    (simulate : Bool) (h : m.fhe_circuit = none) :
    forward_in_fhe m qvalues simulate = (.error .notCompiledFhe, []) ∧
      Err.notCompiledFhe.message =
        "The quantized module is not compiled. Please run compile(...) first before executing it in FHE." := by
  constructor
  · simp [forward_in_fhe, h]
  · rfl

/-- C5 witness at a concrete uncompiled module. -/
theorem forward_in_fhe_not_compiled_witness :
    forward_in_fhe exModGood [exArrInt] true = (.error .notCompiledFhe, []) :=
  (forward_in_fhe_not_compiled exModGood [exArrInt] true rfl).1

/-- C6: each of `quantize_input`, `_forward` and
`set_inputs_quantization_parameters` rejects an argument count different
from its declared arity with a `TypeError` whose message states the actual
and expected counts; `quantize_input` and `_forward` are read-only on the
module, and `set_inputs_quantization_parameters` raises before its
mutation, leaving the module state unchanged. -/
theorem arity_mismatch_raises_type_error (m : QuantizedModule)
    (values qvals : List NDArr) (qparams : List UniformQuantizer) :
    (values.length ≠ m.input_quantizers.length →
      quantize_input m values =
        .error (.arityMismatch values.length m.input_quantizers.length)) ∧
    (qvals.length ≠ m.input_quantizers.length →
      _forward m qvals =
        .error (.arityMismatch qvals.length m.input_quantizers.length)) ∧
    (qparams.length ≠ m.ordered_module_input_names.length →
      set_inputs_quantization_parameters m qparams =
        (m, some (.arityMismatch qparams.length m.ordered_module_input_names.length))) ∧
    (∀ g e : Nat, (Err.arityMismatch g e).message =
      "Got " ++ toString g ++ " inputs, expected " ++ toString e) ∧
    (∀ g e : Nat, (Err.arityMismatch g e).pyClass = "TypeError") := by
  refine ⟨fun h => ?_, fun h => ?_, fun h => ?_, fun g e => rfl, fun g e => rfl⟩
  · simp [quantize_input, h]
  · simp [_forward, h]
  · simp [set_inputs_quantization_parameters, h]

/-- C6 witness: calling the three operations of a concrete one-input module
with zero arguments raises the arity `TypeError` naming 0 and 1. -/
theorem arity_mismatch_witness :
    quantize_input exModGood [] = .error (.arityMismatch 0 1) ∧
    _forward exModGood [] = .error (.arityMismatch 0 1) ∧
    set_inputs_quantization_parameters exModGood [] =
      (exModGood, some (.arityMismatch 0 1)) := by
  have h := arity_mismatch_raises_type_error exModGood [] [] []
  exact ⟨h.1 (by decide), h.2.1 (by decide), h.2.2.1 (by decide)⟩

/-- C9 (counterexample): the claim that the debug trace is cleared from
every operation before the call returns **or fails** is false: on a debug
call whose graph execution raises (here, an arity mismatch inside
`_forward`, raised after the trackers are installed), the exception
propagates before the clearing loop, and the tracker stays installed on the
operation. -/
theorem debug_trace_not_cleared_on_failure :
    (forward exModGood [] true).1 = .error (.arityMismatch 0 1) ∧
    (forward exModGood [] true).2.quant_layers_dict.map
      (fun e => e.2.2.debugSlot) = [some ()] := by
  constructor <;> rfl

/-- C9 (amended): a `forward` call without debug capture leaves the module
state — in particular every operation's `debug_value_tracker` slot —
untouched, and a debug call that returns successfully clears the tracker
from every operation before returning; only when graph execution raises in
debug mode does the installed tracker survive the call. -/
theorem debug_trace_lifecycle (m : QuantizedModule) (qvalues : List NDArr) :
    ((forward m qvalues false).2 = m) ∧
    (∀ r, (forward m qvalues true).1 = .ok r →
      (forward m qvalues true).2.quant_layers_dict.map (fun e => e.2.2.debugSlot) =
        m.quant_layers_dict.map (fun _ => none)) := by
  constructor
  · by_cases hinv : invalidInputs qvalues = []
    · simp [forward, hinv]
    · simp [forward, hinv]
  · intro r hr
    by_cases hinv : invalidInputs qvalues = []
    · simp only [forward, hinv, ne_eq, not_true_eq_false, if_false, if_true] at hr ⊢
      cases hf : _forward (setDebugSlots m (some ())) qvalues with
      | error e => rw [hf] at hr; exact absurd hr (by simp)
      | ok v =>
        simp only [setDebugSlots, List.map_map]
        rfl
    · simp [forward, hinv] at hr

/-- C9 witness for the amended claim: a fault-free debug call on a concrete
module succeeds and leaves every tracker slot cleared. -/
theorem debug_trace_lifecycle_witness :
    (forward exModGood [exArrInt] true).2.quant_layers_dict.map
      (fun e => e.2.2.debugSlot) = [none] :=
  (debug_trace_lifecycle exModGood [exArrInt]).2 exArrInt rfl

/-- C10: a successful `quantize_input` call returns the single quantized
array itself (not a one-element tuple) when the module has exactly one
input quantizer, and the tuple of per-input quantized arrays, in declared
order, when it has two or more. -/
theorem quantize_input_return_shape (m : QuantizedModule) (values : List NDArr)
    (harity : values.length = m.input_quantizers.length)
    (hq : ∀ idx, idx < values.length →
      ((m.input_quantizers.getD idx ⟨0, id⟩).quant (values.getD idx default)).dtype
        = DType.int64) :
    (m.input_quantizers.length = 1 →
      quantize_input m values =
        .ok (.arr ((m.input_quantizers.getD 0 ⟨0, id⟩).quant (values.getD 0 default)))) ∧
    (2 ≤ m.input_quantizers.length →
      quantize_input m values =
        .ok (.tup ((List.range values.length).map (fun idx =>
          (m.input_quantizers.getD idx ⟨0, id⟩).quant (values.getD idx default))))) := by
  have hne : ¬ (values.length ≠ m.input_quantizers.length) := by simp [harity]
  have hall : ((List.range values.length).map (fun idx =>
      (m.input_quantizers.getD idx ⟨0, id⟩).quant (values.getD idx default))).all
      (fun a => a.dtype == DType.int64) = true := by
    rw [List.all_eq_true]
    intro a ha
    rw [List.mem_map] at ha
    obtain ⟨i, hi, rfl⟩ := ha
    rw [List.mem_range] at hi
    simpa using hq i hi
  constructor
  · intro h1
    have hvlen : values.length = 1 := harity.trans h1
    have h0 := hq 0 (by omega)
    obtain ⟨v, rfl⟩ := List.length_eq_one.mp hvlen
    rw [List.getD_eq_getElem?_getD, List.getElem?_eq_getElem (by omega)] at h0
    simp [quantize_input, hne, h1, List.range_succ]
    simpa using h0
  · intro h2
    have hvlen : 2 ≤ values.length := by omega
    have hone : (values.length == 1) = false := by
      rw [beq_eq_false_iff_ne]
      omega
    simp only [quantize_input, if_neg hne]
    simp only [List.length_map, List.length_range, hone]
    simp [hall, hone, Nat.ne_of_gt (by omega : 0 < values.length)]
    intro x hx
    simpa using hq x hx

/-- C10 witness: a one-input module returns the bare quantized array, not a
one-element tuple. -/
theorem quantize_input_return_shape_witness :
    quantize_input exModGood [exArrFloat] = .ok (.arr ⟨DType.int64, [[1], [2]]⟩) :=
  (quantize_input_return_shape exModGood [exArrFloat] rfl (by decide)).1 rfl

/-- C4: the compilation input set has one element per sample of the first
input; for a single quantized input it is the flat sequence of that input's
samples re-expanded to leading dimension 1, and for multiple inputs its
element `i` is the tuple of every input's sample `i` re-expanded to leading
dimension 1. -/
theorem inputset_generator_structure (a : NDArr) (l : List NDArr)
    (h2 : 2 ≤ l.length) :
    (_get_inputset_generator (.arr a) =
        .ok (a.samples.map (fun s => .arr (expandDims0 a.dtype s))) ∧
      (a.samples.map (fun s => ArrOrTuple.arr (expandDims0 a.dtype s))).length
        = a.samples.length) ∧
    (∃ out, _get_inputset_generator (.tup l) = .ok out ∧
      out.length = (l.headD default).samples.length ∧
      ∀ i, i < out.length →
        out.getD i default =
          .tup (l.map (fun qi => expandDims0 qi.dtype (qi.samples.getD i [])))) := by
  constructor
  · exact ⟨by simp [_get_inputset_generator, to_tuple], by simp⟩
  · have hne : l.isEmpty = false := by
      cases l with
      | nil => simp at h2
      | cons x xs => rfl
    have hgt : 1 < l.length := by omega
    refine ⟨(List.range (l.headD default).samples.length).map (fun idx =>
      .tup (l.map (fun qi => expandDims0 qi.dtype (qi.samples.getD idx [])))), ?_, by simp, ?_⟩
    · simp [_get_inputset_generator, to_tuple, hne, hgt]
    · intro i hi
      simp only [List.length_map, List.length_range] at hi
      rw [List.getD_eq_getElem?_getD, List.getElem?_map, List.getElem?_range hi]
      rfl

/-- C4 witness: a concrete two-input tuple yields the per-sample tuples. -/
theorem inputset_generator_structure_witness :
    _get_inputset_generator (.tup [exArrFloat, exArrFloat]) =
      .ok [.tup [⟨DType.float64, [[1]]⟩, ⟨DType.float64, [[1]]⟩],
           .tup [⟨DType.float64, [[2]]⟩, ⟨DType.float64, [[2]]⟩]] := by
  obtain ⟨out, hout, hlen, helem⟩ :=
    (inputset_generator_structure exArrFloat [exArrFloat, exArrFloat] (by decide)).2
  have hcalc : Except.ok (ε := Err)
      [ArrOrTuple.tup [⟨DType.float64, [[1]]⟩, ⟨DType.float64, [[1]]⟩],
       ArrOrTuple.tup [⟨DType.float64, [[2]]⟩, ⟨DType.float64, [[2]]⟩]] = Except.ok out := by
    rw [← hout]
    rfl
  injection hcalc with h
  rw [hout, ← h]

/-- `quantize_input` only fails with an arity `TypeError` or the int64
dtype assertion. -/
theorem quantize_input_error_cases (m : QuantizedModule) (values : List NDArr)
    (e : Err) (h : quantize_input m values = .error e) :
    e = Err.arityMismatch values.length m.input_quantizers.length ∨
      e = Err.notQuantizedInt64 := by
  unfold quantize_input at h
  split at h
  · exact Or.inl (by injection h with h; exact h.symm)
  · dsimp only at h
    split at h
    · exact Or.inr (by injection h with h; exact h.symm)
    · split at h <;> simp at h

/-- `_get_inputset_generator` only fails with the empty-inputset
assertion. -/
theorem inputset_generator_error_cases (q : ArrOrTuple) (e : Err)
    (h : _get_inputset_generator q = .error e) : e = Err.emptyInputset := by
  unfold _get_inputset_generator at h
  dsimp only at h
  split at h
  · injection h with h; exact h.symm
  · split at h <;> simp at h

/-- C7: `compile` fails before reaching the external compiler whenever a
calibration input's leading dimension differs from the first input's, or
some calibration input already has an integral dtype; when both
preconditions hold, neither of the two checks fires. -/
theorem compile_precondition_checks (m : QuantizedModule) (inputs : ArrOrTuple)
    (first : NDArr) (rest : List NDArr)
    (hinp : to_tuple inputs = first :: rest) :
    ((¬ ∀ a ∈ first :: rest, a.samples.length = first.samples.length) →
      compile m inputs = .error .mismatchedDatasetLengths) ∧
    ((∀ a ∈ first :: rest, a.samples.length = first.samples.length) →
      (∃ a ∈ first :: rest, a.dtype.isInteger = true) →
      compile m inputs = .error .nonFloatCompileInputs) ∧
    ((∀ a ∈ first :: rest, a.samples.length = first.samples.length) →
      (∀ a ∈ first :: rest, a.dtype.isInteger = false) →
      compile m inputs ≠ .error .mismatchedDatasetLengths ∧
      compile m inputs ≠ .error .nonFloatCompileInputs) := by
  have hc : compile m inputs =
      (if !((first :: rest).all fun i => i.samples.length == first.samples.length) then
        Except.error Err.mismatchedDatasetLengths
      else if (first :: rest).any (fun i => i.dtype.isInteger) then
        Except.error Err.nonFloatCompileInputs
      else
        match quantize_input m (first :: rest) with
        | .error e => .error e
        | .ok q_inputs => _get_inputset_generator q_inputs) := by
    unfold compile
    rw [hinp]
  refine ⟨fun hforall => ?_, fun hforall hex => ?_, fun hforall hnone => ?_⟩
  · have hfalse : ((first :: rest).all fun i => i.samples.length == first.samples.length)
        = false := by
      cases hb : (first :: rest).all fun i => i.samples.length == first.samples.length with
      | false => rfl
      | true =>
        exact absurd (fun a ha => eq_of_beq (List.all_eq_true.mp hb a ha)) hforall
    rw [hc, hfalse]
    rfl
  · have htrue : ((first :: rest).all fun i => i.samples.length == first.samples.length)
        = true :=
      List.all_eq_true.mpr (fun a ha => beq_iff_eq.mpr (hforall a ha))
    obtain ⟨a, ha, hint⟩ := hex
    have hany : ((first :: rest).any fun i => i.dtype.isInteger) = true :=
      List.any_eq_true.mpr ⟨a, ha, hint⟩
    rw [hc, htrue, hany]
    rfl
  · have htrue : ((first :: rest).all fun i => i.samples.length == first.samples.length)
        = true :=
      List.all_eq_true.mpr (fun a ha => beq_iff_eq.mpr (hforall a ha))
    have hany : ((first :: rest).any fun i => i.dtype.isInteger) = false := by
      cases hb : (first :: rest).any fun i => i.dtype.isInteger with
      | false => rfl
      | true =>
        obtain ⟨a, ha, hint⟩ := List.any_eq_true.mp hb
        rw [hnone a ha] at hint
        exact absurd hint (by simp)
    rw [hc, htrue, hany]
    simp only [Bool.not_true, if_false]
    cases hq : quantize_input m (first :: rest) with
    | error e =>
      rcases quantize_input_error_cases m (first :: rest) e hq with h | h <;>
        simp [h]
    | ok q =>
      cases hg : _get_inputset_generator q with
      | error e2 =>
        simp [hg, inputset_generator_error_cases q e2 hg]
      | ok out =>
        simp [hg]

/-- C7 witness: a concrete two-float-input calibration set with mismatched
leading dimensions is rejected with the dataset-length assertion. -/
theorem compile_precondition_checks_witness :
    compile exModGood (.tup [exArrFloat, ⟨DType.float64, [[1]]⟩]) =
      .error .mismatchedDatasetLengths := by
  refine (compile_precondition_checks exModGood
    (.tup [exArrFloat, ⟨DType.float64, [[1]]⟩]) exArrFloat
    [⟨DType.float64, [[1]]⟩] rfl).1 ?_
  intro hall
  have := hall ⟨DType.float64, [[1]]⟩ (by simp)
  simp [exArrFloat] at this

/-- `_forward` never raises the input-dtype `ValueError`: that check
belongs to `forward`. -/
theorem _forward_never_nonIntegerInputs (m : QuantizedModule)
    (qvalues : List NDArr) (l : List (Nat × NDArr)) :
    _forward m qvalues ≠ .error (.nonIntegerInputs l) := by
  unfold _forward
  split
  · simp
  · dsimp only
    split
    · simp
    · intro hcontra
      cases hco : collectOutputs
          (runGraph m.quant_layers_dict (initLayerResults m qvalues)).1
          m.ordered_module_output_names with
      | error e =>
        rw [hco] at hcontra
        obtain ⟨n, rfl⟩ := collectOutputs_error_cases _ _ _ hco
        simp at hcontra
      | ok outputs =>
        rw [hco] at hcontra
        match outputs with
        | [GVal.qa q] => simp at hcontra
        | [GVal.nd a] => simp at hcontra
        | [] => simp at hcontra
        | x :: y :: rest =>
          cases x <;> simp at hcontra

/-- C2: a `forward` call with the declared number of inputs fails with the
input-dtype `ValueError` iff some input array's element dtype is
non-integral; the offender list enumerates exactly the positions with a
non-integral dtype together with their arrays (whose dtype the message
prints), and the exception class is `ValueError`. -/
theorem forward_noninteger_input_check (m : QuantizedModule)
    (qvalues : List NDArr) (debug : Bool)
    (_harity : qvalues.length = m.input_quantizers.length) :
    ((forward m qvalues debug).1 = .error (.nonIntegerInputs (invalidInputs qvalues)) ↔
      invalidInputs qvalues ≠ []) ∧
    (∀ i a, (i, a) ∈ invalidInputs qvalues ↔
      qvalues[i]? = some a ∧ a.dtype.isInteger = false) ∧
    (∀ p ∈ invalidInputs qvalues,
      offenderText p ∈ (invalidInputs qvalues).map offenderText) ∧
    (Err.nonIntegerInputs (invalidInputs qvalues)).pyClass = "ValueError" := by
  refine ⟨⟨fun herr => ?_, fun hne => ?_⟩, fun i a => ?_, fun p hp => ?_, rfl⟩
  · intro hinv
    rw [show forward m qvalues debug =
        (if debug then
          (match _forward (setDebugSlots m (some ())) qvalues with
            | .error e => (Except.error e, setDebugSlots m (some ()))
            | .ok r => (Except.ok r, setDebugSlots (setDebugSlots m (some ())) none))
        else (_forward m qvalues, m)) from by simp [forward, hinv]] at herr
    cases debug with
    | false =>
      exact _forward_never_nonIntegerInputs m qvalues _ herr
    | true =>
      cases hf : _forward (setDebugSlots m (some ())) qvalues with
      | error e =>
        rw [hf] at herr
        simp at herr
        exact _forward_never_nonIntegerInputs _ qvalues _ (herr ▸ hf)
      | ok r => rw [hf] at herr; simp at herr
  · simp [forward, hne]
  · rw [invalidInputs, List.mem_filter, List.mk_mem_enum_iff_getElem?]
    simp
  · exact List.mem_map_of_mem _ hp

/-- C2 witness: a one-input module called with a float64 array fails with
the `ValueError` naming offender 0 and its dtype. -/
theorem forward_noninteger_input_check_witness :
    (forward exModGood [exArrFloat] false).1 =
      .error (.nonIntegerInputs [(0, exArrFloat)]) := by
  have h := (forward_noninteger_input_check exModGood [exArrFloat] false rfl).1.2
    (by decide)
  exact h

/-- C1: a forward pass first runs every node of the graph, accumulating the
QAT fault records of all nodes; if the accumulated list is non-empty,
`_forward` raises the single aggregated `ValueError` carrying exactly that
list (whose message contains one line naming each (tensor, operation-type)
pair), and if it is empty no QAT error is raised. -/
theorem qat_faults_aggregated (m : QuantizedModule) (qvalues : List NDArr)
    (harity : qvalues.length = m.input_quantizers.length) :
    (badQatOpsOf m qvalues ≠ [] →
      _forward m qvalues = .error (.qatImportError (badQatOpsOf m qvalues)) ∧
      ∀ p ∈ badQatOpsOf m qvalues, qatLine p ∈ qatLines (badQatOpsOf m qvalues)) ∧
    (badQatOpsOf m qvalues = [] →
      ∀ l, _forward m qvalues ≠ .error (.qatImportError l)) := by
  have hne : ¬ (qvalues.length ≠ m.input_quantizers.length) := by simp [harity]
  constructor
  · intro hbad
    refine ⟨?_, fun p hp => List.mem_map_of_mem _ hp⟩
    rw [badQatOpsOf] at hbad
    unfold _forward
    rw [if_neg hne]
    dsimp only
    rw [if_pos hbad]
    rfl
  · intro hempty l hcontra
    rw [badQatOpsOf] at hempty
    unfold _forward at hcontra
    rw [if_neg hne] at hcontra
    dsimp only at hcontra
    rw [if_neg (by simp [hempty])] at hcontra
    cases hco : collectOutputs
        (runGraph m.quant_layers_dict (initLayerResults m qvalues)).1
        m.ordered_module_output_names with
    | error e =>
      rw [hco] at hcontra
      obtain ⟨n, rfl⟩ := collectOutputs_error_cases _ _ _ hco
      simp at hcontra
    | ok outputs =>
      rw [hco] at hcontra
      match outputs with
      | [GVal.qa q] => simp at hcontra
      | [GVal.nd a] => simp at hcontra
      | [] => simp at hcontra
      | x :: y :: rest => cases x <;> simp at hcontra

/-- C1 witness: a module whose single operation reports a fault on its
input raises the aggregated QAT error naming that tensor and operation. -/
theorem qat_faults_aggregated_witness :
    _forward exModBad [exArrInt] = .error (.qatImportError [("x", "Gemm")]) :=
  ((qat_faults_aggregated exModBad [exArrInt] rfl).1 (by decide)).1

/-- Concatenating lists that all have length one is the same as taking each
list's head. -/
theorem flatten_of_singletons (L : List (List (List Int)))
    (h : ∀ x ∈ L, x.length = 1) : L.flatten = L.map (fun x => x.headD []) := by
  induction L with
  | nil => rfl
  | cons x xs ih =>
    obtain ⟨a, rfl⟩ := List.length_eq_one.mp (h x (List.mem_cons_self x xs))
    simp only [List.flatten_cons, List.map_cons]
    rw [ih (fun y hy => h y (by simp [hy]))]
    rfl

/-- C3: on a compiled module, `forward_in_fhe` (in either mode) succeeds
and returns one result sample per input sample, where result sample `i` is
the backend's output for the single-sample slice `i` of the inputs — sample
order is preserved exactly, and the two modes differ only in which backend
entry point (`simulate` vs `encrypt_run_decrypt`) each per-sample call is
routed to. -/
theorem fhe_batch_order_preserved (m : QuantizedModule) (c : Circuit)
    (qvalues : List NDArr) (n : Nat) (b : Bool)
    (hc : m.fhe_circuit = some c)
    (hn : (qvalues.headD default).samples.length = n)
    (hpos : 0 < n)
    (hunit : ∀ args : List NDArr, (c.simulate args).samples.length = 1 ∧
      (c.encrypt_run_decrypt args).samples.length = 1) :
    ∃ r, (forward_in_fhe m qvalues b).1 = .ok r ∧
      r.samples.length = n ∧
      r.samples = (List.range n).map (fun i =>
        ((if b then c.simulate else c.encrypt_run_decrypt)
          (fheSample qvalues i)).samples.headD []) := by
  unfold forward_in_fhe
  rw [hc]
  dsimp only
  rw [hn]
  have hform : ((List.range n).map (fheSample qvalues)).map
      (fun args => if b then c.simulate args else c.encrypt_run_decrypt args) =
      (List.range n).map (fun i =>
        (if b then c.simulate else c.encrypt_run_decrypt) (fheSample qvalues i)) := by
    rw [List.map_map]
    cases b <;> rfl
  rw [hform]
  have hne : ((List.range n).map (fun i =>
      (if b then c.simulate else c.encrypt_run_decrypt)
        (fheSample qvalues i))).isEmpty = false := by
    cases hE : (List.range n).map (fun i =>
        (if b then c.simulate else c.encrypt_run_decrypt) (fheSample qvalues i)) with
    | nil =>
      have := congrArg List.length hE
      simp at this
      omega
    | cons y ys => rfl
  rw [hne]
  refine ⟨_, rfl, ?_, ?_⟩
  · have hlens : ∀ x ∈ ((List.range n).map (fun i =>
        (if b then c.simulate else c.encrypt_run_decrypt)
          (fheSample qvalues i))).map (fun a => a.samples), x.length = 1 := by
      intro x hx
      rw [List.mem_map] at hx
      obtain ⟨y, hy, rfl⟩ := hx
      rw [List.mem_map] at hy
      obtain ⟨i, _, rfl⟩ := hy
      cases b
      · exact (hunit _).2
      · exact (hunit _).1
    simp only [npConcatenate, flatten_of_singletons _ hlens]
    simp
  · have hlens : ∀ x ∈ ((List.range n).map (fun i =>
        (if b then c.simulate else c.encrypt_run_decrypt)
          (fheSample qvalues i))).map (fun a => a.samples), x.length = 1 := by
      intro x hx
      rw [List.mem_map] at hx
      obtain ⟨y, hy, rfl⟩ := hx
      rw [List.mem_map] at hy
      obtain ⟨i, _, rfl⟩ := hy
      cases b
      · exact (hunit _).2
      · exact (hunit _).1
    simp only [npConcatenate, flatten_of_singletons _ hlens]
    rw [List.map_map, List.map_map]
    rfl

/-- C3 witness: a concrete compiled module on a two-sample batch returns
the backend's per-sample outputs in order. -/
theorem fhe_batch_order_preserved_witness :
    (forward_in_fhe exModCompiled [exArrInt] true).1 =
      .ok ⟨DType.int64, [[7], [7]]⟩ := by
  obtain ⟨r, hr, -, -⟩ := fhe_batch_order_preserved exModCompiled exCircuit
    [exArrInt] 2 true rfl rfl (by decide) (fun args => ⟨rfl, rfl⟩)
  have hcalc : Except.ok (ε := Err) (⟨DType.int64, [[7], [7]]⟩ : NDArr) =
      Except.ok r := by
    rw [← hr]
    rfl
  injection hcalc with h
  rw [hr, ← h]

/-- `dictInsert` with a key absent from the dict appends the binding. -/
theorem dictInsert_fresh {V : Type} (d : List (String × V)) (k : String)
    (v : V) (h : ∀ p ∈ d, p.1 ≠ k) : dictInsert d k v = d ++ [(k, v)] := by
  unfold dictInsert
  rw [if_neg]
  intro hc
  rw [List.any_eq_true] at hc
  obtain ⟨p, hp, hbeq⟩ := hc
  exact h p hp (eq_of_beq hbeq)

/-- `reportStep` adds the node's `reportEntry` (if any) under the node's
tag. -/
theorem reportStep_eq (c : Circuit) (acc : List (String × ((Int × Int) × Int)))
    (entry : String × (List String × QLayer)) :
    reportStep c acc entry =
      match reportEntry c entry.2.2 with
      | some v => dictInsert acc entry.2.2.opInstanceName v
      | none => acc := by
  unfold reportStep reportEntry
  dsimp only
  cases c.graphIntegerRange (tagPattern entry.2.2.opInstanceName) with
  | none => rfl
  | some vr =>
    dsimp only
    by_cases h : 0 ≤ c.graphMaxBitWidth (tagPattern entry.2.2.opInstanceName)
    · simp only [if_pos h]
    · simp only [if_neg h]

/-- Folding `reportStep` over nodes with pairwise-distinct tags, none of
which occurs in the accumulator, appends each node's optional entry in
order. -/
theorem reportStep_foldl (c : Circuit) :
    ∀ (layers : List (String × (List String × QLayer)))
      (acc : List (String × ((Int × Int) × Int))),
      (∀ e ∈ layers, ∀ p ∈ acc, p.1 ≠ e.2.2.opInstanceName) →
      (layers.map (fun e => e.2.2.opInstanceName)).Nodup →
      layers.foldl (reportStep c) acc =
        acc ++ layers.filterMap (fun e =>
          (reportEntry c e.2.2).map (fun v => (e.2.2.opInstanceName, v))) := by
  intro layers
  induction layers with
  | nil => intro acc _ _; simp
  | cons e es ih =>
    intro acc hdis hnodup
    rw [List.map_cons, List.nodup_cons] at hnodup
    simp only [List.foldl_cons, List.filterMap_cons]
    cases hre : reportEntry c e.2.2 with
    | none =>
      rw [reportStep_eq, hre]
      exact ih acc (fun e2 he2 p hp => hdis e2 (List.mem_cons_of_mem e he2) p hp)
        hnodup.2
    | some v =>
      rw [reportStep_eq, hre]
      dsimp only
      rw [dictInsert_fresh acc e.2.2.opInstanceName v
        (fun p hp => hdis e (List.mem_cons_self e es) p hp)]
      rw [ih (acc ++ [(e.2.2.opInstanceName, v)]) ?_ hnodup.2]
      · simp
      · intro e2 he2 p hp
        rcases List.mem_append.mp hp with hpa | hpe
        · exact hdis e2 (List.mem_cons_of_mem e he2) p hpa
        · have hp1 : p.1 = e.2.2.opInstanceName := by
            rcases List.mem_singleton.mp hpe with rfl
            rfl
          rw [hp1]
          intro hcontra
          exact hnodup.1 (hcontra ▸ List.mem_map_of_mem (fun x => x.2.2.opInstanceName) he2)

/-- The tag pattern matches a tag iff it is the node's own tag or extends
it after a dot. -/
theorem tagPattern_spec (name tag : String) :
    tagPattern name tag = true ↔
      tag = name ∨ ∃ sub : String, tag = name ++ "." ++ sub := by
  unfold tagPattern
  rw [Bool.or_eq_true, beq_iff_eq, List.isPrefixOf_iff_prefix]
  constructor
  · rintro (h | h)
    · exact Or.inl h
    · obtain ⟨r, hr⟩ := h
      refine Or.inr ⟨⟨r⟩, String.ext ?_⟩
      rw [← hr]
      simp
  · rintro (rfl | ⟨sub, rfl⟩)
    · exact Or.inl rfl
    · refine Or.inr ⟨sub.data, ?_⟩
      simp

/-- C8: `bitwidth_and_range_report` returns `None` (without raising)
whenever no circuit is compiled; on a compiled module with distinct node
tags it returns a mapping containing a node's tag iff the circuit reports a
present integer range and a non-negative maximum bit-width for that node's
tag pattern, each included entry holds exactly that range and bit-width,
and the tag pattern matches exactly the node's own tag and its
dot-separated sub-tags. -/
theorem bitwidth_report_characterization (m : QuantizedModule) (c : Circuit)
    (hc : m.fhe_circuit = some c)
    (hnodup : (m.quant_layers_dict.map (fun e => e.2.2.opInstanceName)).Nodup) :
    (∀ m' : QuantizedModule, m'.fhe_circuit = none →
      bitwidth_and_range_report m' = none) ∧
    ∃ L, bitwidth_and_range_report m = some L ∧
      (∀ name, (∃ v, (name, v) ∈ L) ↔
        ∃ e ∈ m.quant_layers_dict, e.2.2.opInstanceName = name ∧
          (∃ vr, c.graphIntegerRange (tagPattern name) = some vr) ∧
          0 ≤ c.graphMaxBitWidth (tagPattern name)) ∧
      (∀ name vr bw, (name, (vr, bw)) ∈ L →
        c.graphIntegerRange (tagPattern name) = some vr ∧
        c.graphMaxBitWidth (tagPattern name) = bw) ∧
      (∀ name tag, tagPattern name tag = true ↔
        tag = name ∨ ∃ sub : String, tag = name ++ "." ++ sub) := by
  refine ⟨fun m' hm' => by simp [bitwidth_and_range_report, hm'], ?_⟩
  have hL : bitwidth_and_range_report m =
      some (m.quant_layers_dict.filterMap (fun e =>
        (reportEntry c e.2.2).map (fun v => (e.2.2.opInstanceName, v)))) := by
    unfold bitwidth_and_range_report
    rw [hc]
    dsimp only
    rw [reportStep_foldl c m.quant_layers_dict [] (by simp) hnodup]
    rw [List.nil_append]
  refine ⟨_, hL, ?_, ?_, tagPattern_spec⟩
  · intro name
    constructor
    · rintro ⟨v, hv⟩
      rw [List.mem_filterMap] at hv
      obtain ⟨e, he, hee⟩ := hv
      cases hre : reportEntry c e.2.2 with
      | none => rw [hre] at hee; simp at hee
      | some w =>
        rw [hre] at hee
        simp only [Option.map_some'] at hee
        injection hee with h1
        have hname : e.2.2.opInstanceName = name := congrArg Prod.fst h1
        refine ⟨e, he, hname, ?_⟩
        rw [← hname]
        unfold reportEntry at hre
        cases hrange : c.graphIntegerRange (tagPattern e.2.2.opInstanceName) with
        | none => rw [hrange] at hre; simp at hre
        | some vr =>
          rw [hrange] at hre
          dsimp only at hre
          by_cases hbw : 0 ≤ c.graphMaxBitWidth (tagPattern e.2.2.opInstanceName)
          · exact ⟨⟨vr, rfl⟩, hbw⟩
          · rw [if_neg hbw] at hre; exact absurd hre (by simp)
    · rintro ⟨e, he, hname, ⟨vr, hvr⟩, hbw⟩
      refine ⟨(vr, c.graphMaxBitWidth (tagPattern name)), ?_⟩
      rw [List.mem_filterMap]
      refine ⟨e, he, ?_⟩
      rw [hname]
      unfold reportEntry
      rw [hname, hvr]
      simp [hbw]
  · intro name vr bw hmem
    rw [List.mem_filterMap] at hmem
    obtain ⟨e, he, hee⟩ := hmem
    cases hre : reportEntry c e.2.2 with
    | none => rw [hre] at hee; simp at hee
    | some w =>
      rw [hre] at hee
      simp only [Option.map_some'] at hee
      injection hee with h1
      have hname : e.2.2.opInstanceName = name := congrArg Prod.fst h1
      have hw : w = (vr, bw) := congrArg Prod.snd h1
      subst hw
      unfold reportEntry at hre
      cases hrange : c.graphIntegerRange (tagPattern e.2.2.opInstanceName) with
      | none => rw [hrange] at hre; simp at hre
      | some vr2 =>
        rw [hrange] at hre
        dsimp only at hre
        by_cases hbw : 0 ≤ c.graphMaxBitWidth (tagPattern e.2.2.opInstanceName)
        · rw [if_pos hbw] at hre
          injection hre with h2
          have hv2 : vr2 = vr := congrArg Prod.fst h2
          have hb2 : c.graphMaxBitWidth (tagPattern e.2.2.opInstanceName) = bw :=
            congrArg Prod.snd h2
          subst hv2
          rw [← hname]
          exact ⟨hrange, hb2⟩
        · rw [if_neg hbw] at hre
          exact absurd hre (by simp)

/-- C8 witness: the concrete compiled module reports its single tagged
node with the circuit's range and bit-width. -/
theorem bitwidth_report_characterization_witness :
    bitwidth_and_range_report exModCompiled = some [("gemm1", ((0, 5), 3))] := by
  obtain ⟨-, L, hL, -, -, -⟩ := bitwidth_report_characterization exModCompiled
    exCircuit rfl (by decide)
  have hcalc : some (α := List (String × ((Int × Int) × Int)))
      [("gemm1", ((0, 5), 3))] = some L := by
    rw [← hL]
    rfl
  injection hcalc with h
  rw [hL, ← h]
